import Mathlib

/-!
Shallow embedding of drivers/net/virtio/virtio_user/vhost_user.c
(vhost-user control-plane client of the virtio-user driver).

Machine integers are modelled as Nat (with explicit `% 2 ^ 64` where
64-bit wraparound matters) and C `int` return values as Int.  System
calls (recv, sendmsg, open, stat, fopen/fgets) are modelled by explicit
input parameters describing what the outside world delivers, so every
definition is an executable Lean function of those inputs.
-/

/-- Protocol version constant, VHOST_USER_VERSION in the source. -/
def VHOST_USER_VERSION : Nat := 0x1

/-- VHOST_MEMORY_MAX_NREGIONS in the source. -/
def VHOST_MEMORY_MAX_NREGIONS : Nat := 8

/-- VHOST_USER_VERSION_MASK: low two bits of the flags word. -/
def VHOST_USER_VERSION_MASK : Nat := 0x3

/-- VHOST_USER_REPLY_MASK: the reply-marker bit (bit 2) of the flags word. -/
def VHOST_USER_REPLY_MASK : Nat := 0x1 <<< 2

/-- VHOST_USER_VRING_IDX_MASK: low 8 bits of the vring-file scalar. -/
def VHOST_USER_VRING_IDX_MASK : Nat := 0xff

/-- VHOST_USER_VRING_NOFD_MASK: the no-descriptor bit (bit 8) of the scalar. -/
def VHOST_USER_VRING_NOFD_MASK : Nat := 0x1 <<< 8

/-- Byte size of the 64-bit scalar payload variant (sizeof(__u64)). -/
def u64Size : Nat := 8

/-- Byte size of struct vhost_vring_state: two 32-bit fields (index, num). -/
def vringStateSize : Nat := 8

/-- Byte size of struct vhost_vring_addr: two 32-bit fields (index, flags)
followed by four 64-bit addresses, as laid out in the vhost header. -/
def vringAddrSize : Nat := 40

/-- Byte size of struct vhost_memory_region: four 64-bit fields. -/
def memoryRegionSize : Nat := 32

/-- Byte size of the nregions + padding prefix of struct vhost_memory. -/
def memoryHeaderSize : Nat := 8

/-- VHOST_USER_HDR_SIZE: offsetof(struct vhost_user_msg, payload.u64),
i.e. request (4) + flags (4) + size (4). -/
def VHOST_USER_HDR_SIZE : Nat := 12

/-- sizeof(msg->payload): the largest payload union member, which is
struct vhost_memory = 8 + 8 * 32 bytes. -/
def maxPayloadSize : Nat := memoryHeaderSize + VHOST_MEMORY_MAX_NREGIONS * memoryRegionSize

/-- enum vhost_user_request from the driver's vhost header (the requests
named by the source file; exact integer codes are irrelevant here, only
identity comparisons occur). -/
inductive VhostUserRequest where
  | VHOST_USER_NONE
  | VHOST_USER_GET_FEATURES
  | VHOST_USER_SET_FEATURES
  | VHOST_USER_SET_OWNER
  | VHOST_USER_RESET_OWNER
  | VHOST_USER_SET_MEM_TABLE
  | VHOST_USER_SET_LOG_BASE
  | VHOST_USER_SET_LOG_FD
  | VHOST_USER_SET_VRING_NUM
  | VHOST_USER_SET_VRING_ADDR
  | VHOST_USER_SET_VRING_BASE
  | VHOST_USER_GET_VRING_BASE
  | VHOST_USER_SET_VRING_KICK
  | VHOST_USER_SET_VRING_CALL
  | VHOST_USER_SET_VRING_ERR
  | VHOST_USER_GET_PROTOCOL_FEATURES
  | VHOST_USER_SET_PROTOCOL_FEATURES
  | VHOST_USER_GET_QUEUE_NUM
  | VHOST_USER_SET_VRING_ENABLE
deriving DecidableEq

/-- struct vhost_vring_state: ring index and count/value. -/
structure VringState where
  index : Nat
  num : Nat
deriving DecidableEq

/-- struct vhost_vring_addr (passed through verbatim by the dispatcher). -/
structure VringAddr where
  index : Nat
  flags : Nat
  desc_user_addr : Nat
  used_user_addr : Nat
  avail_user_addr : Nat
  log_guest_addr : Nat
deriving DecidableEq

/-- struct vhost_memory_region. -/
structure VhostMemoryRegion where
  guest_phys_addr : Nat
  userspace_addr : Nat
  memory_size : Nat
  mmap_offset : Nat
deriving DecidableEq

/-- The payload union of struct vhost_user_msg, as a tagged variant:
which member is active is determined by the request kind. -/
inductive Payload where
  | pnone
  | pu64 (v : Nat)
  | pstate (s : VringState)
  | paddr (a : VringAddr)
  | pmem (nregions : Nat) (regions : List VhostMemoryRegion)
deriving DecidableEq

/-- Byte length of the active payload variant, from the struct layout. -/
def payloadSize : Payload → Nat
  | .pnone => 0
  | .pu64 _ => u64Size
  | .pstate _ => vringStateSize
  | .paddr _ => vringAddrSize
  | .pmem n _ => memoryHeaderSize + memoryRegionSize * n

/-- The header-plus-payload part of struct vhost_user_msg as built by
the dispatcher (the out-of-band descriptor array is tracked separately). -/
structure Msg where
  request : VhostUserRequest
  flags : Nat
  size : Nat
  payload : Payload
deriving DecidableEq

/-- struct vhost_vring_file: ring index plus an eventfd descriptor. -/
structure VringFile where
  index : Nat
  fd : Int
deriving DecidableEq

/-- The void *arg of vhost_user_sock, as the variant the request kind
reinterprets it as. -/
inductive VhostArg where
  | vu64 (v : Nat)
  | vstate (s : VringState)
  | vaddr (a : VringAddr)
  | vfile (f : VringFile)
  | vfd (fd : Int)
deriving DecidableEq

/-- Outcome of one sendmsg call: interrupted (negative return with the
interrupted-call error code) or a plain return value r. -/
inductive SendOutcome where
  | eintr
  | ret (r : Int)
deriving DecidableEq

/-- vhost_user_write's retry loop: do r = sendmsg(...) while (r < 0 and
errno == EINTR); returns the first non-interrupted sendmsg result.  The
argument lists the successive sendmsg outcomes the kernel delivers.  (If
every call is interrupted the C loop never returns; on such an input the
model returns -1, a case no theorem below relies on.) -/
def vhost_user_write : List SendOutcome → Int
  | [] => -1
  | .eintr :: rest => vhost_user_write rest
  | .ret r :: _ => r

/-- The two views the reply-handling code takes of the received payload
bytes (the union is written by recv and read back as either member). -/
structure ReplyPayload where
  u64 : Nat
  state : VringState
deriving DecidableEq

/-- What the peer delivers to the two recv calls of vhost_user_read:
bytes available for the header read, the header fields themselves, the
bytes available for the payload read, and the payload content. -/
structure ReplyInput where
  hdrBytes : Int
  request : VhostUserRequest
  flags : Nat
  size : Nat
  payloadBytes : Int
  payload : ReplyPayload
deriving DecidableEq

/-- Result of vhost_user_read: whether it returned 0, and how many
payload bytes it asked recv for (0 when the payload recv is never
reached). -/
structure ReadResult where
  ok : Bool
  payloadReq : Nat
deriving DecidableEq

/-- vhost_user_read: recv the fixed-size header; fail on a short header
read; fail unless flags = VHOST_USER_REPLY_MASK | VHOST_USER_VERSION;
fail if the declared size exceeds sizeof(msg->payload); then, if the
size is nonzero, recv exactly that many payload bytes, failing on a
short read. -/
def vhost_user_read (r : ReplyInput) : ReadResult :=
  if r.hdrBytes < (VHOST_USER_HDR_SIZE : Int) then ⟨false, 0⟩
  else if r.flags ≠ (VHOST_USER_REPLY_MASK ||| VHOST_USER_VERSION) then ⟨false, 0⟩
  else if maxPayloadSize < r.size then ⟨false, 0⟩
  else if r.size ≠ 0 then
    if r.payloadBytes < (r.size : Int) then ⟨false, r.size⟩
    else ⟨true, r.size⟩
  else ⟨true, 0⟩

/-- One line of the memory-mapping introspection table, after the
per-line text handling of get_hugepage_file_info: either the leading
hex address range fails to parse (bad), or it parses to a start/end
pair with the trailing pathname field (empty when the line has none). -/
inductive MapsLine where
  | bad
  | entry (vStart vEnd : Nat) (path : String)
deriving DecidableEq

/-- struct hugepage_file_info. -/
structure HugepageFileInfo where
  addr : Nat
  size : Nat
  path : String
deriving DecidableEq

/-- Index of the last occurrence of a character in a list (strrchr). -/
def lastIdxOf (c : Char) : List Char → Option Nat
  | [] => none
  | a :: rest =>
    match lastIdxOf c rest with
    | some i => some (i + 1)
    | none => if a = c then some 0 else none

/-- Whether sscanf with a decimal-integer conversion succeeds at the
start of the given text: optional whitespace, optional sign, then at
least one decimal digit. -/
def scanDecimalOk (cs : List Char) : Bool :=
  match cs.dropWhile (fun ch => ch.isWhitespace) with
  | [] => false
  | a :: rest =>
    if a = '-' ∨ a = '+' then
      match rest with
      | [] => false
      | b :: _ => b.isDigit
    else a.isDigit

/-- The hugepage-file pattern test of get_hugepage_file_info: find the
last underscore of the pathname (skip the line if none), step back over
the literal token map (skip if that falls before the start), and check
that the text there reads map_ followed by a decimal integer. -/
def matchesHugefile (p : String) : Bool :=
  let cs := p.data
  match lastIdxOf '_' cs with
  | none => false
  | some u =>
    if u < 3 then false
    else if (cs.drop (u - 3)).take 4 = ['m', 'a', 'p', '_'] then
      scanDecimalOk (cs.drop (u + 1))
    else false

/-- 64-bit unsigned subtraction a - b (mod 2 ^ 64), as performed on the
uint64_t mapping bounds. -/
def usub64 (a b : Nat) : Nat := (a % 2 ^ 64 + (2 ^ 64 - b % 2 ^ 64)) % 2 ^ 64

/-- The line scan of get_hugepage_file_info: abort on an unparsable
address line; skip lines whose pathname does not match the hugepage
pattern; skip paths already recorded (duplicate mappings of one file);
abort when a new distinct file would exceed the region limit; otherwise
record the mapping's start address and virtual extent (the extent is a
placeholder, corrected afterwards from the file size). -/
def scanLoop (max : Nat) : List MapsLine → List HugepageFileInfo → Option (List HugepageFileInfo)
  | [], acc => some acc
  | .bad :: _, _ => none
  | .entry vStart vEnd p :: rest, acc =>
    if matchesHugefile p then
      if acc.any (fun r => r.path = p) then scanLoop max rest acc
      else if max ≤ acc.length then none
      else scanLoop max rest (acc ++ [⟨vStart % 2 ^ 64, usub64 vEnd vStart, p⟩])
    else scanLoop max rest acc

/-- The size-correction pass of get_hugepage_file_info: stat each
recorded path; on stat failure keep the record unchanged (the loop just
continues), otherwise overwrite the size with the file's byte length. -/
def hugeCorrect (statFn : String → Option Nat) (r : HugepageFileInfo) : HugepageFileInfo :=
  match statFn r.path with
  | none => r
  | some sz => ⟨r.addr, sz, r.path⟩

/-- get_hugepage_file_info: fail if the introspection source cannot be
opened (maps = none); scan the lines; then correct sizes from the
filesystem.  statFn models stat (none = failure, some n = st_size). -/
def get_hugepage_file_info (maps : Option (List MapsLine))
    (statFn : String → Option Nat) (max : Nat) : Option (List HugepageFileInfo) :=
  match maps with
  | none => none
  | some lines =>
    match scanLoop max lines [] with
    | none => none
    | some huges => some (huges.map (hugeCorrect statFn))

/-- prepare_vhost_memory_user: run discovery with the fixed region
limit; on success build one memory-region descriptor per record (both
addresses set to the virtual address, offset zero) and open each
backing file, collecting the returned descriptors.  openFn models
open(path, O_RDWR); its result is recorded unchecked, as in the source. -/
def prepare_vhost_memory_user (maps : Option (List MapsLine))
    (statFn : String → Option Nat) (openFn : String → Int) :
    Option (List VhostMemoryRegion × List Int) :=
  match get_hugepage_file_info maps statFn VHOST_MEMORY_MAX_NREGIONS with
  | none => none
  | some huges =>
    some (huges.map (fun h => ⟨h.addr, h.addr, h.size, 0⟩),
          huges.map (fun h => openFn h.path))

/-- The fields of struct virtio_user_dev that vhost_user_sock reads. -/
structure Dev where
  is_server : Bool
  vhostfd : Int
deriving DecidableEq

/-- Everything the outside world feeds one vhost_user_sock call: the
memory-mapping table (none = unopenable), the stat and open behaviours,
the successive sendmsg outcomes, and what the peer delivers to recv. -/
structure World where
  maps : Option (List MapsLine)
  statFn : String → Option Nat
  openFn : String → Int
  sendOutcomes : List SendOutcome
  reply : ReplyInput

/-- The message-construction switch of vhost_user_sock: the message
(request, flags = VHOST_USER_VERSION, size, payload), the descriptor
array, and whether a reply is expected.  none models the paths that
return -1 before sending (memory-table preparation failure and the
unhandled-request default; an argument variant other than the one the
request kind casts to is unreachable in the source and also maps to
none). -/
def buildMsg (req : VhostUserRequest) (arg : VhostArg) (w : World) :
    Option (Msg × List Int × Bool) :=
  match req with
  | .VHOST_USER_GET_FEATURES =>
    some (⟨req, VHOST_USER_VERSION, 0, .pnone⟩, [], true)
  | .VHOST_USER_SET_FEATURES | .VHOST_USER_SET_LOG_BASE =>
    match arg with
    | .vu64 v => some (⟨req, VHOST_USER_VERSION, u64Size, .pu64 v⟩, [], false)
    | _ => none
  | .VHOST_USER_SET_OWNER | .VHOST_USER_RESET_OWNER =>
    some (⟨req, VHOST_USER_VERSION, 0, .pnone⟩, [], false)
  | .VHOST_USER_SET_MEM_TABLE =>
    match prepare_vhost_memory_user w.maps w.statFn w.openFn with
    | none => none
    | some (regions, fds) =>
      some (⟨req, VHOST_USER_VERSION,
             memoryHeaderSize + fds.length * memoryRegionSize,
             .pmem regions.length regions⟩, fds, false)
  | .VHOST_USER_SET_LOG_FD =>
    match arg with
    | .vfd fd => some (⟨req, VHOST_USER_VERSION, 0, .pnone⟩, [fd], false)
    | _ => none
  | .VHOST_USER_SET_VRING_NUM | .VHOST_USER_SET_VRING_BASE
  | .VHOST_USER_SET_VRING_ENABLE =>
    match arg with
    | .vstate s => some (⟨req, VHOST_USER_VERSION, vringStateSize, .pstate s⟩, [], false)
    | _ => none
  | .VHOST_USER_GET_VRING_BASE =>
    match arg with
    | .vstate s => some (⟨req, VHOST_USER_VERSION, vringStateSize, .pstate s⟩, [], true)
    | _ => none
  | .VHOST_USER_SET_VRING_ADDR =>
    match arg with
    | .vaddr a => some (⟨req, VHOST_USER_VERSION, vringAddrSize, .paddr a⟩, [], false)
    | _ => none
  | .VHOST_USER_SET_VRING_KICK | .VHOST_USER_SET_VRING_CALL
  | .VHOST_USER_SET_VRING_ERR =>
    match arg with
    | .vfile f =>
      if f.fd > 0 then
        some (⟨req, VHOST_USER_VERSION, u64Size,
               .pu64 (f.index &&& VHOST_USER_VRING_IDX_MASK)⟩, [f.fd], false)
      else
        some (⟨req, VHOST_USER_VERSION, u64Size,
               .pu64 ((f.index &&& VHOST_USER_VRING_IDX_MASK) ||| VHOST_USER_VRING_NOFD_MASK)⟩,
              [], false)
    | _ => none
  | _ => none

/-- Observable outcome of one vhost_user_sock call: the return value,
the message/length/descriptors handed to vhost_user_write (none when
the call fails before sending), the descriptors the call itself opened
(memory-table preparation), the descriptors it closed before
returning, and the final value of the caller's argument. -/
structure SockResult where
  ret : Int
  sent : Option (Msg × Nat × List Int)
  openedFds : List Int
  closedFds : List Int
  argOut : VhostArg
deriving DecidableEq

/-- vhost_user_sock: refuse when in server mode with no connected peer;
build the message per request kind; send header + size bytes with the
descriptor array; for set-mem-table close the opened descriptors after
a successful send only; when a reply is expected, read it, reject a
mismatched request id, validate the reply size for the kind, and only
then copy the payload back into the caller's argument. -/
def vhost_user_sock (dev : Dev) (req : VhostUserRequest) (arg : VhostArg)
    (w : World) : SockResult :=
  if dev.is_server = true ∧ dev.vhostfd < 0 then ⟨-1, none, [], [], arg⟩
  else
    match buildMsg req arg w with
    | none => ⟨-1, none, [], [], arg⟩
    | some (msg, fds, needReply) =>
      let len := VHOST_USER_HDR_SIZE + msg.size
      let opened := if req = .VHOST_USER_SET_MEM_TABLE then fds else []
      if vhost_user_write w.sendOutcomes < 0 then
        ⟨-1, some (msg, len, fds), opened, [], arg⟩
      else
        let closed := if req = .VHOST_USER_SET_MEM_TABLE then fds else []
        if needReply then
          if (vhost_user_read w.reply).ok = false then
            ⟨-1, some (msg, len, fds), opened, closed, arg⟩
          else if req ≠ w.reply.request then
            ⟨-1, some (msg, len, fds), opened, closed, arg⟩
          else
            match req with
            | .VHOST_USER_GET_FEATURES =>
              if w.reply.size ≠ u64Size then
                ⟨-1, some (msg, len, fds), opened, closed, arg⟩
              else
                ⟨0, some (msg, len, fds), opened, closed, .vu64 w.reply.payload.u64⟩
            | .VHOST_USER_GET_VRING_BASE =>
              if w.reply.size ≠ vringStateSize then
                ⟨-1, some (msg, len, fds), opened, closed, arg⟩
              else
                ⟨0, some (msg, len, fds), opened, closed, .vstate w.reply.payload.state⟩
            | _ => ⟨-1, some (msg, len, fds), opened, closed, arg⟩
        else ⟨0, some (msg, len, fds), opened, closed, arg⟩

/-- vhost_user_enable_queue_pair: for i = 0 and 1 issue set-vring-enable
with ring index pair_idx * 2 + i and value enable, stopping with -1 as
soon as a call fails.  The second component records the vring-state
argument of every vhost_user_sock call actually issued, in order; w0
and w1 are the world inputs of the two potential calls. -/
def vhost_user_enable_queue_pair (dev : Dev) (w0 w1 : World)
    (pair_idx enable : Nat) : Int × List VringState :=
  let s0 : VringState := ⟨pair_idx * 2, enable⟩
  if (vhost_user_sock dev .VHOST_USER_SET_VRING_ENABLE (.vstate s0) w0).ret ≠ 0 then
    (-1, [s0])
  else
    let s1 : VringState := ⟨pair_idx * 2 + 1, enable⟩
    if (vhost_user_sock dev .VHOST_USER_SET_VRING_ENABLE (.vstate s1) w1).ret ≠ 0 then
      (-1, [s0, s1])
    else (0, [s0, s1])

/-- The pathname a mapping line contributes to the set of
hugepage-backed files: none for an unparsable line or a line whose
pathname fails the hugepage pattern. -/
def linePath : MapsLine → Option String
  | .bad => none
  | .entry _ _ p => if matchesHugefile p then some p else none

/-- Number of distinct hugepage-backed files named by a mapping table. -/
def distinctHugeFiles (lines : List MapsLine) : Nat :=
  (lines.filterMap linePath).toFinset.card

/-- One memory region and one opened descriptor are produced per discovered hugepage file, so the two lists have equal length. -/
theorem prepare_lengths (maps : Option (List MapsLine)) (statFn : String → Option Nat)
    (openFn : String → Int) (regions : List VhostMemoryRegion) (fds : List Int)
    (h : prepare_vhost_memory_user maps statFn openFn = some (regions, fds)) :
    regions.length = fds.length := by
  unfold prepare_vhost_memory_user at h
  split at h
  · cases h
  · cases h
    simp

/-- Every successfully built message declares a size equal to the byte length of its active payload variant. -/
theorem buildMsg_size_eq_payloadSize (req : VhostUserRequest) (arg : VhostArg) (w : World)
    (msg : Msg) (fds : List Int) (nr : Bool)
    (h : buildMsg req arg w = some (msg, fds, nr)) :
    msg.size = payloadSize msg.payload := by
  cases req <;> cases arg <;> simp only [buildMsg] at h
  all_goals try split at h
  all_goals cases h
  all_goals simp [payloadSize, u64Size, vringStateSize, vringAddrSize, memoryHeaderSize,
    memoryRegionSize, Nat.mul_comm, List.length_map]
  all_goals (rename_i regions heq; exact (prepare_lengths _ _ _ _ _ heq).symm)

/-- When the guard passes and construction succeeds, vhost_user_sock hands exactly the built message, the header-plus-payload length, and the built descriptor list to vhost_user_write. -/
theorem sock_sent_of_buildMsg (dev : Dev) (req : VhostUserRequest) (arg : VhostArg) (w : World)
    (msg : Msg) (fds : List Int) (nr : Bool)
    (hguard : ¬(dev.is_server = true ∧ dev.vhostfd < 0))
    (h : buildMsg req arg w = some (msg, fds, nr)) :
    (vhost_user_sock dev req arg w).sent = some (msg, VHOST_USER_HDR_SIZE + msg.size, fds) := by
  unfold vhost_user_sock
  rw [if_neg hguard, h]
  simp only []
  repeat' split
  all_goals rfl

/-- The size-correction pass never changes the recorded path. -/
theorem hugeCorrect_path (f : String → Option Nat) (r : HugepageFileInfo) :
    (hugeCorrect f r).path = r.path := by
  unfold hugeCorrect
  split <;> rfl

/-- The scan keeps recorded paths pairwise distinct. -/
theorem scanLoop_paths_nodup (lines : List MapsLine) :
    ∀ (acc : List HugepageFileInfo) (max : Nat) (res : List HugepageFileInfo),
    (acc.map HugepageFileInfo.path).Nodup → scanLoop max lines acc = some res →
    (res.map HugepageFileInfo.path).Nodup := by
  induction lines with
  | nil =>
    intro acc max res h hs
    simp only [scanLoop, Option.some.injEq] at hs
    subst hs
    exact h
  | cons l rest ih =>
    intro acc max res h hs
    cases l with
    | bad => simp [scanLoop] at hs
    | entry s e p =>
      simp only [scanLoop] at hs
      split at hs
      · split at hs
        · exact ih _ _ _ h hs
        · split at hs
          · cases hs
          · refine ih _ _ _ ?_ hs
            rename_i hm hdup hlim
            have hnotin : p ∉ acc.map HugepageFileInfo.path := by
              intro hmem
              apply hdup
              simp only [List.mem_map] at hmem
              obtain ⟨r, hr, hrp⟩ := hmem
              simp only [List.any_eq_true]
              exact ⟨r, hr, by simp [hrp]⟩
            simp only [List.map_append, List.map_cons, List.map_nil]
            rw [List.nodup_append]
            exact ⟨h, List.nodup_singleton _, by
              intro a ha hb
              simp only [List.mem_singleton] at hb
              subst hb
              exact hnotin ha⟩
      · exact ih _ _ _ h hs

/-- The scan aborts whenever an unparsable address line is present. -/
theorem scanLoop_bad (lines : List MapsLine) :
    ∀ (acc : List HugepageFileInfo) (max : Nat), MapsLine.bad ∈ lines →
    scanLoop max lines acc = none := by
  induction lines with
  | nil => intro acc max h; cases h
  | cons l rest ih =>
    intro acc max hmem
    cases l with
    | bad => rfl
    | entry s e p =>
      have h2 : MapsLine.bad ∈ rest := by
        rcases List.mem_cons.1 hmem with h | h
        · cases h
        · exact h
      simp only [scanLoop]
      split
      · split
        · exact ih _ _ h2
        · split
          · rfl
          · exact ih _ _ h2
      · exact ih _ _ h2

/-- When the scan succeeds, the matching paths not yet recorded number at most the remaining free slots. -/
theorem scanLoop_bound (lines : List MapsLine) :
    ∀ (acc : List HugepageFileInfo) (max : Nat) (res : List HugepageFileInfo),
    scanLoop max lines acc = some res →
    ((lines.filterMap linePath).toFinset \ (acc.map HugepageFileInfo.path).toFinset).card
      ≤ max - acc.length := by
  induction lines with
  | nil => intro acc max res h; simp
  | cons l rest ih =>
    intro acc max res h
    cases l with
    | bad => simp [scanLoop] at h
    | entry s e p =>
      simp only [scanLoop] at h
      split at h
      · rename_i hm
        split at h
        · rename_i hdup
          have hp : p ∈ (acc.map HugepageFileInfo.path).toFinset := by
            simp only [List.any_eq_true] at hdup
            obtain ⟨r, hr, hrp⟩ := hdup
            simp only [List.mem_toFinset, List.mem_map]
            exact ⟨r, hr, by simpa using hrp⟩
          have hih := ih _ _ _ h
          rw [List.filterMap_cons]
          simp only [linePath, hm, if_true]
          rw [List.toFinset_cons, Finset.insert_sdiff_of_mem _ hp]
          exact hih
        · split at h
          · cases h
          · rename_i hdup hlim
            have hih := ih _ _ _ h
            have hnotin : p ∉ (acc.map HugepageFileInfo.path).toFinset := by
              intro hmem
              apply hdup
              simp only [List.mem_toFinset, List.mem_map] at hmem
              obtain ⟨r, hr, hrp⟩ := hmem
              simp only [List.any_eq_true]
              exact ⟨r, hr, by simp [hrp]⟩
            rw [List.filterMap_cons]
            simp only [linePath, hm, if_true]
            rw [List.toFinset_cons]
            have hmem : p ∈ insert p (rest.filterMap linePath).toFinset \
                (acc.map HugepageFileInfo.path).toFinset :=
              Finset.mem_sdiff.mpr ⟨Finset.mem_insert_self _ _, hnotin⟩
            have hkey : (insert p (rest.filterMap linePath).toFinset \
                (acc.map HugepageFileInfo.path).toFinset).card =
                ((rest.filterMap linePath).toFinset \
                  insert p (acc.map HugepageFileInfo.path).toFinset).card + 1 := by
              rw [← Finset.card_erase_add_one hmem]
              congr 1
              rw [Finset.insert_sdiff_of_not_mem _ hnotin,
                Finset.erase_insert_eq_erase, Finset.sdiff_insert]
            have hacc : ((acc ++ [(⟨s % 2 ^ 64, usub64 e s, p⟩ : HugepageFileInfo)]).map
                HugepageFileInfo.path).toFinset =
                insert p (acc.map HugepageFileInfo.path).toFinset := by
              simp only [List.map_append, List.map_cons, List.map_nil, List.toFinset_append]
              simp [Finset.union_comm, Finset.insert_eq]
            rw [hacc] at hih
            simp only [List.length_append, List.length_cons, List.length_nil] at hih
            rw [hkey]
            omega
      · rename_i hm
        have hih := ih _ _ _ h
        rw [List.filterMap_cons]
        simp only [linePath, hm, if_false]
        exact hih

/-- Unfolding equation of get_hugepage_file_info on an opened introspection source. -/
theorem get_hugepage_file_info_some (lines : List MapsLine)
    (statFn : String → Option Nat) (max : Nat) :
    get_hugepage_file_info (some lines) statFn max =
      match scanLoop max lines [] with
      | none => none
      | some huges => some (huges.map (hugeCorrect statFn)) := rfl

/-- Construction for the three vring-file kinds with a positive descriptor: masked-index scalar, descriptor attached. -/
theorem buildMsg_vring_file_pos (req : VhostUserRequest) (f : VringFile) (w : World)
    (hreq : req = .VHOST_USER_SET_VRING_KICK ∨ req = .VHOST_USER_SET_VRING_CALL ∨
      req = .VHOST_USER_SET_VRING_ERR) (hfd : 0 < f.fd) :
    buildMsg req (.vfile f) w =
      some (⟨req, VHOST_USER_VERSION, u64Size,
             .pu64 (f.index &&& VHOST_USER_VRING_IDX_MASK)⟩, [f.fd], false) := by
  rcases hreq with rfl | rfl | rfl <;> simp [buildMsg, hfd]

/-- Construction for the three vring-file kinds with a non-positive descriptor: no-descriptor bit set, nothing attached. -/
theorem buildMsg_vring_file_neg (req : VhostUserRequest) (f : VringFile) (w : World)
    (hreq : req = .VHOST_USER_SET_VRING_KICK ∨ req = .VHOST_USER_SET_VRING_CALL ∨
      req = .VHOST_USER_SET_VRING_ERR) (hfd : f.fd ≤ 0) :
    buildMsg req (.vfile f) w =
      some (⟨req, VHOST_USER_VERSION, u64Size,
             .pu64 ((f.index &&& VHOST_USER_VRING_IDX_MASK) |||
               VHOST_USER_VRING_NOFD_MASK)⟩, [], false) := by
  have hfd2 : ¬(f.fd > 0) := by omega
  rcases hreq with rfl | rfl | rfl <;> simp [buildMsg, hfd2]

/-- Helper: 64-bit unsigned subtraction agrees with Nat subtraction in range. -/
theorem usub64_eq_sub (a b : Nat) (h1 : b ≤ a) (h2 : a < 2 ^ 64) :
    usub64 a b = a - b := by
  unfold usub64
  rw [Nat.mod_eq_of_lt h2, Nat.mod_eq_of_lt (by omega : b < 2 ^ 64)]
  have h : a + (2 ^ 64 - b) = (a - b) + 2 ^ 64 := by omega
  rw [h, Nat.add_mod_right, Nat.mod_eq_of_lt (by omega)]

/-- Claim C1: for every supported request kind, dispatch sends a header whose size field exactly equals the byte length of the payload variant for that kind: 0 for get-features, set-owner, reset-owner and set-log-fd; 8 for the 64-bit-scalar kinds; the vring-state size for the vring-state kinds; the vring-address size for set-vring-addr; and 8 plus nregions times the region-descriptor size for set-mem-table; and the dispatcher hands exactly that header and payload to the transport. -/
theorem c1_dispatch_size :
    (∀ (req : VhostUserRequest) (arg : VhostArg) (w : World) (msg : Msg)
        (fds : List Int) (nr : Bool),
      buildMsg req arg w = some (msg, fds, nr) → msg.size = payloadSize msg.payload)
    ∧ (∀ (arg : VhostArg) (w : World) (msg : Msg) (fds : List Int) (nr : Bool),
      buildMsg .VHOST_USER_GET_FEATURES arg w = some (msg, fds, nr) → msg.size = 0)
    ∧ (∀ (arg : VhostArg) (w : World) (msg : Msg) (fds : List Int) (nr : Bool),
      buildMsg .VHOST_USER_SET_OWNER arg w = some (msg, fds, nr) → msg.size = 0)
    ∧ (∀ (arg : VhostArg) (w : World) (msg : Msg) (fds : List Int) (nr : Bool),
      buildMsg .VHOST_USER_RESET_OWNER arg w = some (msg, fds, nr) → msg.size = 0)
    ∧ (∀ (arg : VhostArg) (w : World) (msg : Msg) (fds : List Int) (nr : Bool),
      buildMsg .VHOST_USER_SET_LOG_FD arg w = some (msg, fds, nr) → msg.size = 0)
    ∧ (∀ (arg : VhostArg) (w : World) (msg : Msg) (fds : List Int) (nr : Bool),
      buildMsg .VHOST_USER_SET_FEATURES arg w = some (msg, fds, nr) → msg.size = u64Size)
    ∧ (∀ (arg : VhostArg) (w : World) (msg : Msg) (fds : List Int) (nr : Bool),
      buildMsg .VHOST_USER_SET_LOG_BASE arg w = some (msg, fds, nr) → msg.size = u64Size)
    ∧ (∀ (arg : VhostArg) (w : World) (msg : Msg) (fds : List Int) (nr : Bool),
      buildMsg .VHOST_USER_SET_VRING_KICK arg w = some (msg, fds, nr) → msg.size = u64Size)
    ∧ (∀ (arg : VhostArg) (w : World) (msg : Msg) (fds : List Int) (nr : Bool),
      buildMsg .VHOST_USER_SET_VRING_CALL arg w = some (msg, fds, nr) → msg.size = u64Size)
    ∧ (∀ (arg : VhostArg) (w : World) (msg : Msg) (fds : List Int) (nr : Bool),
      buildMsg .VHOST_USER_SET_VRING_ERR arg w = some (msg, fds, nr) → msg.size = u64Size)
    ∧ (∀ (arg : VhostArg) (w : World) (msg : Msg) (fds : List Int) (nr : Bool),
      buildMsg .VHOST_USER_SET_VRING_NUM arg w = some (msg, fds, nr) →
        msg.size = vringStateSize)
    ∧ (∀ (arg : VhostArg) (w : World) (msg : Msg) (fds : List Int) (nr : Bool),
      buildMsg .VHOST_USER_SET_VRING_BASE arg w = some (msg, fds, nr) →
        msg.size = vringStateSize)
    ∧ (∀ (arg : VhostArg) (w : World) (msg : Msg) (fds : List Int) (nr : Bool),
      buildMsg .VHOST_USER_SET_VRING_ENABLE arg w = some (msg, fds, nr) →
        msg.size = vringStateSize)
    ∧ (∀ (arg : VhostArg) (w : World) (msg : Msg) (fds : List Int) (nr : Bool),
      buildMsg .VHOST_USER_GET_VRING_BASE arg w = some (msg, fds, nr) →
        msg.size = vringStateSize)
    ∧ (∀ (arg : VhostArg) (w : World) (msg : Msg) (fds : List Int) (nr : Bool),
      buildMsg .VHOST_USER_SET_VRING_ADDR arg w = some (msg, fds, nr) →
        msg.size = vringAddrSize)
    ∧ (∀ (arg : VhostArg) (w : World) (msg : Msg) (fds : List Int) (nr : Bool),
      buildMsg .VHOST_USER_SET_MEM_TABLE arg w = some (msg, fds, nr) →
        ∃ regions, msg.payload = .pmem regions.length regions ∧
          msg.size = memoryHeaderSize + regions.length * memoryRegionSize)
    ∧ (∀ (dev : Dev) (req : VhostUserRequest) (arg : VhostArg) (w : World)
        (msg : Msg) (fds : List Int) (nr : Bool),
      ¬(dev.is_server = true ∧ dev.vhostfd < 0) →
      buildMsg req arg w = some (msg, fds, nr) →
      (vhost_user_sock dev req arg w).sent =
        some (msg, VHOST_USER_HDR_SIZE + msg.size, fds)) := by
  refine ⟨buildMsg_size_eq_payloadSize,
    ?_, ?_, ?_, ?_, ?_, ?_, ?_, ?_, ?_, ?_, ?_, ?_, ?_, ?_, ?_,
    sock_sent_of_buildMsg⟩
  all_goals intro arg w msg fds nr h
  all_goals cases arg <;> simp only [buildMsg] at h <;> (try split at h) <;>
    (try cases h) <;> (try rfl)
  all_goals (rename_i regions heq
             exact ⟨regions, rfl, by rw [prepare_lengths _ _ _ _ _ heq]⟩)

/-- Witness instantiating the corresponding claim theorem at concrete inputs. -/
theorem c1_dispatch_size_witness :
    (vhost_user_sock ⟨false, 3⟩ .VHOST_USER_SET_OWNER (.vu64 0)
      ⟨none, fun _ => none, fun _ => -1, [.ret 12],
       ⟨12, .VHOST_USER_GET_FEATURES, 5, 0, 8, ⟨0, ⟨0, 0⟩⟩⟩⟩).sent =
      some (⟨.VHOST_USER_SET_OWNER, VHOST_USER_VERSION, 0, .pnone⟩,
            VHOST_USER_HDR_SIZE + (0 : Nat), []) :=
  c1_dispatch_size.2.2.2.2.2.2.2.2.2.2.2.2.2.2.2.2 ⟨false, 3⟩ .VHOST_USER_SET_OWNER
    (.vu64 0) _ ⟨.VHOST_USER_SET_OWNER, VHOST_USER_VERSION, 0, .pnone⟩ [] false
    (by decide) (by decide)

/-- Claim C2 counterexample: a send that writes 5 of the 12 requested bytes (a short write) is not surfaced as a transport error; the dispatch call reports success, refuting the claim as stated. -/
theorem c2_short_write_counterexample :
    vhost_user_write [SendOutcome.ret 5] = 5 ∧
    (5 : Int) < (VHOST_USER_HDR_SIZE : Int) ∧
    (vhost_user_sock ⟨false, 3⟩ .VHOST_USER_SET_OWNER (.vu64 0)
      ⟨none, fun _ => none, fun _ => -1, [.ret 5],
       ⟨12, .VHOST_USER_GET_FEATURES, 5, 0, 8, ⟨0, ⟨0, 0⟩⟩⟩⟩).sent =
      some (⟨.VHOST_USER_SET_OWNER, VHOST_USER_VERSION, 0, .pnone⟩, VHOST_USER_HDR_SIZE, []) ∧
    (vhost_user_sock ⟨false, 3⟩ .VHOST_USER_SET_OWNER (.vu64 0)
      ⟨none, fun _ => none, fun _ => -1, [.ret 5],
       ⟨12, .VHOST_USER_GET_FEATURES, 5, 0, 8, ⟨0, ⟨0, 0⟩⟩⟩⟩).ret = 0 := by
  refine ⟨rfl, by decide, rfl, rfl⟩

/-- Claim C2 amended: the transport retries transparently when the underlying send is interrupted, and a send reporting failure (negative result) causes the dispatch call to fail; a short write is not detected. -/
theorem c2_send_error_amended :
    (∀ (outs : List SendOutcome),
      vhost_user_write (.eintr :: outs) = vhost_user_write outs)
    ∧ (∀ (dev : Dev) (req : VhostUserRequest) (arg : VhostArg) (w : World),
      vhost_user_write w.sendOutcomes < 0 → (vhost_user_sock dev req arg w).ret = -1) := by
  constructor
  · intro outs
    rfl
  · intro dev req arg w h
    unfold vhost_user_sock
    split
    · rfl
    · split
      · rfl
      · repeat' split
        all_goals first
          | rfl
          | exact absurd h (by assumption)

/-- Witness instantiating the corresponding claim theorem at concrete inputs. -/
theorem c2_send_error_amended_witness :
    (vhost_user_sock ⟨false, 3⟩ .VHOST_USER_SET_OWNER (.vu64 0)
      ⟨none, fun _ => none, fun _ => -1, [.eintr, .ret (-1)],
       ⟨12, .VHOST_USER_GET_FEATURES, 5, 0, 8, ⟨0, ⟨0, 0⟩⟩⟩⟩).ret = -1 :=
  c2_send_error_amended.2 ⟨false, 3⟩ .VHOST_USER_SET_OWNER (.vu64 0) _ (by decide)

/-- Claim C3 counterexample: when the send of a built memory-table message fails, the descriptor opened for the message (here 7) is not closed before dispatch returns, refuting the claim as stated. -/
theorem c3_fd_leak_counterexample :
    (vhost_user_sock ⟨false, 3⟩ .VHOST_USER_SET_MEM_TABLE (.vu64 0)
      ⟨some [.entry 0 4096 "map_0"], fun _ => some 4096, fun _ => 7, [.ret (-1)],
       ⟨12, .VHOST_USER_GET_FEATURES, 5, 0, 8, ⟨0, ⟨0, 0⟩⟩⟩⟩).ret = -1 ∧
    (vhost_user_sock ⟨false, 3⟩ .VHOST_USER_SET_MEM_TABLE (.vu64 0)
      ⟨some [.entry 0 4096 "map_0"], fun _ => some 4096, fun _ => 7, [.ret (-1)],
       ⟨12, .VHOST_USER_GET_FEATURES, 5, 0, 8, ⟨0, ⟨0, 0⟩⟩⟩⟩).openedFds = [7] ∧
    (vhost_user_sock ⟨false, 3⟩ .VHOST_USER_SET_MEM_TABLE (.vu64 0)
      ⟨some [.entry 0 4096 "map_0"], fun _ => some 4096, fun _ => 7, [.ret (-1)],
       ⟨12, .VHOST_USER_GET_FEATURES, 5, 0, 8, ⟨0, ⟨0, 0⟩⟩⟩⟩).closedFds = [] := by
  refine ⟨by decide, by decide, by decide⟩

/-- Claim C3 amended: the descriptors opened for a memory-table message are all closed on the success path; on a memory-table-construction failure no descriptors were opened; but on a send failure none of the opened descriptors are closed. -/
theorem c3_fd_close_amended :
    (∀ (dev : Dev) (arg : VhostArg) (w : World),
      (vhost_user_sock dev .VHOST_USER_SET_MEM_TABLE arg w).ret = 0 →
      (vhost_user_sock dev .VHOST_USER_SET_MEM_TABLE arg w).closedFds =
        (vhost_user_sock dev .VHOST_USER_SET_MEM_TABLE arg w).openedFds)
    ∧ (∀ (dev : Dev) (arg : VhostArg) (w : World),
      prepare_vhost_memory_user w.maps w.statFn w.openFn = none →
      (vhost_user_sock dev .VHOST_USER_SET_MEM_TABLE arg w).openedFds = [] ∧
      (vhost_user_sock dev .VHOST_USER_SET_MEM_TABLE arg w).closedFds = [])
    ∧ (∀ (dev : Dev) (req : VhostUserRequest) (arg : VhostArg) (w : World),
      vhost_user_write w.sendOutcomes < 0 →
      (vhost_user_sock dev req arg w).closedFds = []) := by
  refine ⟨?_, ?_, ?_⟩
  · intro dev arg w
    unfold vhost_user_sock
    repeat' split
    all_goals intro h
    all_goals first
      | rfl
      | simp at h
  · intro dev arg w hp
    unfold vhost_user_sock
    split
    · exact ⟨rfl, rfl⟩
    · have hb : buildMsg .VHOST_USER_SET_MEM_TABLE arg w = none := by
        simp [buildMsg, hp]
      rw [hb]
      exact ⟨rfl, rfl⟩
  · intro dev req arg w h
    unfold vhost_user_sock
    split
    · rfl
    · split
      · rfl
      · repeat' split
        all_goals first
          | rfl
          | exact absurd h (by assumption)

/-- Witness instantiating the corresponding claim theorem at concrete inputs. -/
theorem c3_fd_close_amended_witness :
    (vhost_user_sock ⟨false, 3⟩ .VHOST_USER_SET_MEM_TABLE (.vu64 0)
      ⟨some [.entry 0 4096 "map_0"], fun _ => some 4096, fun _ => 7, [.ret 52],
       ⟨12, .VHOST_USER_GET_FEATURES, 5, 0, 8, ⟨0, ⟨0, 0⟩⟩⟩⟩).closedFds =
    (vhost_user_sock ⟨false, 3⟩ .VHOST_USER_SET_MEM_TABLE (.vu64 0)
      ⟨some [.entry 0 4096 "map_0"], fun _ => some 4096, fun _ => 7, [.ret 52],
       ⟨12, .VHOST_USER_GET_FEATURES, 5, 0, 8, ⟨0, ⟨0, 0⟩⟩⟩⟩).openedFds :=
  c3_fd_close_amended.1 ⟨false, 3⟩ (.vu64 0) _ (by decide)

/-- Claim C4: for every received header, receive fails without requesting any payload bytes when the flags are not exactly the reply marker or-ed with the supported version, or when the declared payload size exceeds the maximum payload variant size; and it never requests more payload bytes than the payload buffer holds. -/
theorem c4_receive_validation (r : ReplyInput) :
    ((r.flags ≠ (VHOST_USER_REPLY_MASK ||| VHOST_USER_VERSION) ∨ maxPayloadSize < r.size) →
      vhost_user_read r = ⟨false, 0⟩)
    ∧ (vhost_user_read r).payloadReq ≤ maxPayloadSize := by
  constructor
  · intro h
    unfold vhost_user_read
    split_ifs with h1 h2 h3 h4 h5 <;> first
      | rfl
      | (exfalso; rcases h with h | h <;> omega)
  · unfold vhost_user_read
    split_ifs with h1 h2 h3 h4 h5 <;> simp <;> omega

theorem c4_receive_validation_witness :
    vhost_user_read ⟨12, .VHOST_USER_GET_FEATURES, 1, 0, 0, ⟨0, ⟨0, 0⟩⟩⟩ = ⟨false, 0⟩ :=
  (c4_receive_validation ⟨12, .VHOST_USER_GET_FEATURES, 1, 0, 0, ⟨0, ⟨0, 0⟩⟩⟩).1
    (Or.inl (by decide))

/-- Claim C5: for set-vring-kick, set-vring-call and set-vring-err, the sent payload is the ring index masked to the low 8 bits; a positive descriptor is attached with the no-descriptor bit clear, otherwise no descriptor is attached and the no-descriptor bit is set in the scalar. -/
theorem c5_vring_file_scalar (dev : Dev) (req : VhostUserRequest) (f : VringFile)
    (w : World) (hguard : ¬(dev.is_server = true ∧ dev.vhostfd < 0))
    (hreq : req = .VHOST_USER_SET_VRING_KICK ∨ req = .VHOST_USER_SET_VRING_CALL ∨
      req = .VHOST_USER_SET_VRING_ERR) :
    (0 < f.fd →
      (vhost_user_sock dev req (.vfile f) w).sent =
        some (⟨req, VHOST_USER_VERSION, u64Size,
               .pu64 (f.index &&& VHOST_USER_VRING_IDX_MASK)⟩,
              VHOST_USER_HDR_SIZE + u64Size, [f.fd]))
    ∧ (f.fd ≤ 0 →
      (vhost_user_sock dev req (.vfile f) w).sent =
        some (⟨req, VHOST_USER_VERSION, u64Size,
               .pu64 ((f.index &&& VHOST_USER_VRING_IDX_MASK) |||
                 VHOST_USER_VRING_NOFD_MASK)⟩,
              VHOST_USER_HDR_SIZE + u64Size, [])) := by
  constructor
  · intro hfd
    exact sock_sent_of_buildMsg dev req (.vfile f) w _ _ _ hguard
      (buildMsg_vring_file_pos req f w hreq hfd)
  · intro hfd
    exact sock_sent_of_buildMsg dev req (.vfile f) w _ _ _ hguard
      (buildMsg_vring_file_neg req f w hreq hfd)

/-- Witness instantiating the corresponding claim theorem at concrete inputs. -/
theorem c5_vring_file_scalar_witness :
    (vhost_user_sock ⟨false, 3⟩ .VHOST_USER_SET_VRING_KICK (.vfile ⟨3, 7⟩)
      ⟨none, fun _ => none, fun _ => -1, [.ret 20],
       ⟨12, .VHOST_USER_GET_FEATURES, 5, 0, 8, ⟨0, ⟨0, 0⟩⟩⟩⟩).sent =
      some (⟨.VHOST_USER_SET_VRING_KICK, VHOST_USER_VERSION, u64Size, .pu64 3⟩,
            VHOST_USER_HDR_SIZE + u64Size, [7]) ∧
    (vhost_user_sock ⟨false, 3⟩ .VHOST_USER_SET_VRING_KICK (.vfile ⟨3, -1⟩)
      ⟨none, fun _ => none, fun _ => -1, [.ret 20],
       ⟨12, .VHOST_USER_GET_FEATURES, 5, 0, 8, ⟨0, ⟨0, 0⟩⟩⟩⟩).sent =
      some (⟨.VHOST_USER_SET_VRING_KICK, VHOST_USER_VERSION, u64Size, .pu64 259⟩,
            VHOST_USER_HDR_SIZE + u64Size, []) := by
  constructor
  · exact (c5_vring_file_scalar ⟨false, 3⟩ _ ⟨3, 7⟩ _ (by decide) (Or.inl rfl)).1 (by decide)
  · exact (c5_vring_file_scalar ⟨false, 3⟩ _ ⟨3, -1⟩ _ (by decide) (Or.inl rfl)).2 (by decide)

/-- Claim C6: memory region discovery returns at most one record per backing-file path in general, and on a table whose two lines share one path it returns exactly one record carrying the first-seen start address and the stat-reported file size. -/
theorem c6_dedup :
    (∀ (lines : List MapsLine) (statFn : String → Option Nat) (max : Nat)
        (res : List HugepageFileInfo),
      get_hugepage_file_info (some lines) statFn max = some res →
      (res.map HugepageFileInfo.path).Nodup)
    ∧ (∀ (s1 e1 s2 e2 : Nat) (p : String) (statFn : String → Option Nat) (sz : Nat),
      matchesHugefile p = true → statFn p = some sz → s1 < 2 ^ 64 →
      get_hugepage_file_info (some [.entry s1 e1 p, .entry s2 e2 p]) statFn
        VHOST_MEMORY_MAX_NREGIONS = some [⟨s1, sz, p⟩]) := by
  constructor
  · intro lines statFn max res h
    rw [get_hugepage_file_info_some] at h
    cases hres : scanLoop max lines [] with
    | none => rw [hres] at h; cases h
    | some huges =>
      rw [hres] at h
      injection h with h
      subst h
      have hnd := scanLoop_paths_nodup lines [] max huges (by simp) hres
      rw [List.map_map]
      have hcomp : (HugepageFileInfo.path ∘ hugeCorrect statFn) = HugepageFileInfo.path := by
        funext r
        exact hugeCorrect_path statFn r
      rw [hcomp]
      exact hnd
  · intro s1 e1 s2 e2 p statFn sz hm hs h1
    have hm1 : s1 % 2 ^ 64 = s1 := Nat.mod_eq_of_lt h1
    rw [get_hugepage_file_info_some]
    simp [scanLoop, hm, hm1, hugeCorrect, hs, VHOST_MEMORY_MAX_NREGIONS]
    omega

/-- Witness instantiating the corresponding claim theorem at concrete inputs. -/
theorem c6_dedup_witness : get_hugepage_file_info
    (some [.entry 4096 8192 "map_0", .entry 20000 30000 "map_0"])
    (fun _ => some 777) VHOST_MEMORY_MAX_NREGIONS = some [⟨4096, 777, "map_0"⟩] :=
  c6_dedup.2 4096 8192 20000 30000 "map_0" (fun _ => some 777) 777 (by decide) rfl
    (by norm_num)

/-- Claim C7: memory region discovery fails when the introspection source cannot be opened, when any line fails address parsing, and when the distinct hugepage-backed files exceed the fixed region limit of 8, rather than truncating. -/
theorem c7_failures :
    (∀ (statFn : String → Option Nat) (max : Nat),
      get_hugepage_file_info none statFn max = none)
    ∧ (∀ (lines : List MapsLine) (statFn : String → Option Nat) (max : Nat),
      MapsLine.bad ∈ lines → get_hugepage_file_info (some lines) statFn max = none)
    ∧ (∀ (lines : List MapsLine) (statFn : String → Option Nat),
      VHOST_MEMORY_MAX_NREGIONS < distinctHugeFiles lines →
      get_hugepage_file_info (some lines) statFn VHOST_MEMORY_MAX_NREGIONS = none) := by
  refine ⟨fun _ _ => rfl, ?_, ?_⟩
  · intro lines statFn max hmem
    rw [get_hugepage_file_info_some, scanLoop_bad lines [] max hmem]
  · intro lines statFn hcard
    rw [get_hugepage_file_info_some]
    cases hres : scanLoop VHOST_MEMORY_MAX_NREGIONS lines [] with
    | none => rfl
    | some res =>
      exfalso
      have hb := scanLoop_bound lines [] VHOST_MEMORY_MAX_NREGIONS res hres
      simp only [List.map_nil, List.toFinset_nil, Finset.sdiff_empty, List.length_nil,
        Nat.sub_zero] at hb
      unfold distinctHugeFiles at hcard
      omega

/-- Witness instantiating the corresponding claim theorem at concrete inputs. -/
theorem c7_failures_witness :
    get_hugepage_file_info
      (some [.entry 0 1 "map_0", .entry 0 1 "map_1", .entry 0 1 "map_2",
             .entry 0 1 "map_3", .entry 0 1 "map_4", .entry 0 1 "map_5",
             .entry 0 1 "map_6", .entry 0 1 "map_7", .entry 0 1 "map_8"])
      (fun _ => none) VHOST_MEMORY_MAX_NREGIONS = none ∧
    get_hugepage_file_info (some [MapsLine.bad]) (fun _ => none) 8 = none :=
  ⟨c7_failures.2.2 _ (fun _ => none) (by decide),
   c7_failures.2.1 [MapsLine.bad] (fun _ => none) 8 (by decide)⟩

/-- Claim C8: the queue-pair enable helper issues set-vring-enable for ring index 2 times pair_idx and then for 2 times pair_idx plus 1 with the same value, stops after the first failed dispatch without issuing the second, and succeeds exactly when both dispatches succeed. -/
theorem c8_enable_queue_pair (dev : Dev) (w0 w1 : World) (p e : Nat) :
    ((vhost_user_sock dev .VHOST_USER_SET_VRING_ENABLE (.vstate ⟨p * 2, e⟩) w0).ret ≠ 0 →
      vhost_user_enable_queue_pair dev w0 w1 p e = (-1, [⟨p * 2, e⟩]))
    ∧ ((vhost_user_sock dev .VHOST_USER_SET_VRING_ENABLE (.vstate ⟨p * 2, e⟩) w0).ret = 0 →
      (vhost_user_enable_queue_pair dev w0 w1 p e).2 = [⟨p * 2, e⟩, ⟨p * 2 + 1, e⟩]
      ∧ ((vhost_user_enable_queue_pair dev w0 w1 p e).1 = 0 ↔
          (vhost_user_sock dev .VHOST_USER_SET_VRING_ENABLE
            (.vstate ⟨p * 2 + 1, e⟩) w1).ret = 0)) := by
  constructor
  · intro h0
    simp [vhost_user_enable_queue_pair, h0]
  · intro h0
    by_cases h1 : (vhost_user_sock dev .VHOST_USER_SET_VRING_ENABLE
        (.vstate ⟨p * 2 + 1, e⟩) w1).ret = 0 <;>
      simp [vhost_user_enable_queue_pair, h0, h1]

/-- Witness instantiating the corresponding claim theorem at concrete inputs. -/
theorem c8_enable_queue_pair_witness :
    (vhost_user_enable_queue_pair ⟨false, 3⟩
      ⟨none, fun _ => none, fun _ => -1, [.ret 20],
       ⟨12, .VHOST_USER_GET_FEATURES, 5, 0, 8, ⟨0, ⟨0, 0⟩⟩⟩⟩
      ⟨none, fun _ => none, fun _ => -1, [.ret 20],
       ⟨12, .VHOST_USER_GET_FEATURES, 5, 0, 8, ⟨0, ⟨0, 0⟩⟩⟩⟩
      2 1).2 = [⟨4, 1⟩, ⟨5, 1⟩] :=
  ((c8_enable_queue_pair ⟨false, 3⟩ _ _ 2 1).2 (by decide)).1

/-- Claim C9: a get-features dispatch whose reply carries a wrong payload size or a mismatched request identifier fails with the caller argument unmodified; the reply payload is copied back only when the identifier and size checks both succeed. -/
theorem c9_get_features_reply (dev : Dev) (w : World) (v : Nat) :
    ((w.reply.size ≠ u64Size ∨ w.reply.request ≠ .VHOST_USER_GET_FEATURES) →
      (vhost_user_sock dev .VHOST_USER_GET_FEATURES (.vu64 v) w).ret = -1
      ∧ (vhost_user_sock dev .VHOST_USER_GET_FEATURES (.vu64 v) w).argOut = .vu64 v)
    ∧ ((vhost_user_sock dev .VHOST_USER_GET_FEATURES (.vu64 v) w).argOut ≠ .vu64 v →
      w.reply.request = .VHOST_USER_GET_FEATURES ∧ w.reply.size = u64Size
      ∧ (vhost_user_read w.reply).ok = true
      ∧ (vhost_user_sock dev .VHOST_USER_GET_FEATURES (.vu64 v) w).ret = 0
      ∧ (vhost_user_sock dev .VHOST_USER_GET_FEATURES (.vu64 v) w).argOut =
          .vu64 w.reply.payload.u64) := by
  constructor
  · intro h
    by_cases hg : dev.is_server = true ∧ dev.vhostfd < 0
    · simp [vhost_user_sock, hg]
    · by_cases hw : vhost_user_write w.sendOutcomes < 0
      · simp [vhost_user_sock, buildMsg, hg, hw]
      · by_cases hok : (vhost_user_read w.reply).ok = false
        · simp [vhost_user_sock, buildMsg, hg, hw, hok]
        · by_cases h1 : w.reply.request = .VHOST_USER_GET_FEATURES
          · have hsz : w.reply.size ≠ u64Size := by
              rcases h with h | h
              · exact h
              · exact absurd h1 h
            simp [vhost_user_sock, buildMsg, hg, hw, hok, h1, hsz]
          · simp [vhost_user_sock, buildMsg, hg, hw, hok, Ne.symm h1]
  · intro hne
    by_cases hg : dev.is_server = true ∧ dev.vhostfd < 0
    · exact absurd (by simp [vhost_user_sock, hg]) hne
    · by_cases hw : vhost_user_write w.sendOutcomes < 0
      · exact absurd (by simp [vhost_user_sock, buildMsg, hg, hw]) hne
      · by_cases hok : (vhost_user_read w.reply).ok = false
        · exact absurd (by simp [vhost_user_sock, buildMsg, hg, hw, hok]) hne
        · by_cases h1 : w.reply.request = .VHOST_USER_GET_FEATURES
          · by_cases hsz : w.reply.size = u64Size
            · refine ⟨h1, hsz, by simpa using hok, ?_, ?_⟩ <;>
                simp [vhost_user_sock, buildMsg, hg, hw, hok, h1, hsz]
            · exact absurd (by
                simp [vhost_user_sock, buildMsg, hg, hw, hok, h1, hsz]) hne
          · exact absurd (by
              simp [vhost_user_sock, buildMsg, hg, hw, hok, Ne.symm h1]) hne

/-- Witness instantiating the corresponding claim theorem at concrete inputs. -/
theorem c9_get_features_reply_witness :
    (vhost_user_sock ⟨false, 3⟩ .VHOST_USER_GET_FEATURES (.vu64 11)
      ⟨none, fun _ => none, fun _ => -1, [.ret 12],
       ⟨12, .VHOST_USER_GET_FEATURES, 5, 7, 7, ⟨0, ⟨0, 0⟩⟩⟩⟩).ret = -1 ∧
    (vhost_user_sock ⟨false, 3⟩ .VHOST_USER_GET_FEATURES (.vu64 11)
      ⟨none, fun _ => none, fun _ => -1, [.ret 12],
       ⟨12, .VHOST_USER_GET_FEATURES, 5, 7, 7, ⟨0, ⟨0, 0⟩⟩⟩⟩).argOut = .vu64 11 :=
  (c9_get_features_reply ⟨false, 3⟩ _ 11).1 (Or.inl (by decide))

/-- Claim C10: when the stat of a recorded hugepage backing file fails during the size-correction pass, discovery still succeeds and keeps the record with the placeholder size taken from the mapping virtual extent. -/
theorem c10_stat_failure (s e : Nat) (p : String) (statFn : String → Option Nat)
    (hm : matchesHugefile p = true) (hs : statFn p = none)
    (h1 : s < 2 ^ 64) (h2 : e < 2 ^ 64) (h3 : s ≤ e) :
    get_hugepage_file_info (some [.entry s e p]) statFn VHOST_MEMORY_MAX_NREGIONS
      = some [⟨s, e - s, p⟩] := by
  have hu : usub64 e s = e - s := usub64_eq_sub e s h3 h2
  have hm1 : s % 2 ^ 64 = s := Nat.mod_eq_of_lt h1
  unfold get_hugepage_file_info
  simp [scanLoop, hm, hu, hm1, hugeCorrect, hs, VHOST_MEMORY_MAX_NREGIONS]
  omega

theorem c10_stat_failure_witness : get_hugepage_file_info
    (some [.entry 4096 8192 "map_0"]) (fun _ => none) VHOST_MEMORY_MAX_NREGIONS
    = some [⟨4096, 4096, "map_0"⟩] :=
  c10_stat_failure 4096 8192 "map_0" (fun _ => none) (by decide) rfl
    (by norm_num) (by norm_num) (by norm_num)
